import Mathlib

/-!
Verification development for the illicit-discharge tracking notebooks.

The program estimates parameters of a one-dimensional advection-dispersion
transport model (Taylor solution) from a downstream concentration time
series.  The definitions below are a shallow embedding of the notebook
code: the numpy array operations become functions on `List α` over a
linear ordered field (instantiated at `ℝ` for the floating-point
computations; the generic form keeps the definitions executable so that
concrete runs can be evaluated over `ℚ`), and computations that can die
with an uncaught Python exception are modelled with `Option`/`Except`.
-/

namespace IllicitDischarge

section ListOps

variable {α : Type} [LinearOrderedField α]

/-- Embedding of `numpy.amax`: the greatest element of a list (junk value `0`
on the empty list, where numpy would raise). -/
def amax : List α → α
  | [] => 0
  | c :: cs => cs.foldl max c

/-- Embedding of `nonzero(C > thr)[0][0]`: index of the first element strictly
above `thr`; `none` models the `IndexError` raised when no element qualifies. -/
def firstIdxGT (thr : α) : List α → Option ℕ
  | [] => none
  | c :: cs => if thr < c then some 0 else (firstIdxGT thr cs).map (· + 1)

/-- First index whose element is at least `thr`; `none` when no element
qualifies.  Used to express `numpy.argmax` (first occurrence of the max). -/
def firstIdxGE (thr : α) : List α → Option ℕ
  | [] => none
  | c :: cs => if thr ≤ c then some 0 else (firstIdxGE thr cs).map (· + 1)

/-- Embedding of `numpy.argmax`: index of the first occurrence of the maximum
(junk value `0` on the empty list). -/
def argmaxIdx (C : List α) : ℕ :=
  (firstIdxGE (amax C) C).getD 0

/-- Embedding of `numpy.linspace a b n`: `n` evenly spaced samples from `a`
to `b` inclusive. -/
def linspace (a b : α) (n : ℕ) : List α :=
  (List.range n).map fun i : ℕ => a + (i : α) * ((b - a) / ((n : α) - 1))

theorem linspace_length (a b : α) (n : ℕ) : (linspace a b n).length = n := by
  rw [linspace, List.length_map, List.length_range]

theorem linspace_getD (a b : α) (n i : ℕ) (hi : i < n) :
    (linspace a b n).getD i 0 = a + (i : α) * ((b - a) / ((n : α) - 1)) := by
  rw [linspace, List.getD_eq_getElem?_getD, List.getElem?_map, List.getElem?_range hi]
  rfl

theorem getD_map (f : α → α) (l : List α) (d : α) :
    ∀ i, i < l.length → (l.map f).getD i d = f (l.getD i d) := by
  induction l with
  | nil => intro i hi; simp at hi
  | cons c cs ih =>
    intro i hi
    cases i with
    | zero => simp
    | succ k =>
      have hk : k < cs.length := by simpa using hi
      simpa using ih k hk

theorem getD_mem (l : List α) (d : α) : ∀ i, i < l.length → l.getD i d ∈ l := by
  induction l with
  | nil => intro i hi; simp at hi
  | cons c cs ih =>
    intro i hi
    cases i with
    | zero => simp
    | succ k =>
      have hk : k < cs.length := by simpa using hi
      simpa using Or.inr (ih k hk)

theorem le_foldl_max (l : List α) : ∀ b : α, b ≤ l.foldl max b := by
  induction l with
  | nil => intro b; simp
  | cons c cs ih =>
    intro b
    calc b ≤ max b c := le_max_left _ _
    _ ≤ cs.foldl max (max b c) := ih (max b c)

theorem mem_le_foldl_max (l : List α) : ∀ b a : α, a ∈ l → a ≤ l.foldl max b := by
  induction l with
  | nil => intro b a ha; simp at ha
  | cons c cs ih =>
    intro b a ha
    rcases List.mem_cons.mp ha with h | h
    · subst h
      calc a ≤ max b a := le_max_right _ _
      _ ≤ cs.foldl max (max b a) := le_foldl_max cs (max b a)
    · exact ih (max b c) a h

theorem foldl_max_mem (l : List α) : ∀ b : α, l.foldl max b = b ∨ l.foldl max b ∈ l := by
  induction l with
  | nil => intro b; left; rfl
  | cons c cs ih =>
    intro b
    rcases ih (max b c) with h | h
    · rcases le_total b c with hbc | hcb
      · right
        have : max b c = c := max_eq_right hbc
        rw [List.foldl_cons, h, this]
        exact List.mem_cons_self c cs
      · left
        have : max b c = b := max_eq_left hcb
        rw [List.foldl_cons, h, this]
    · right
      exact List.mem_cons.mpr (Or.inr h)

theorem le_amax (C : List α) (a : α) (ha : a ∈ C) : a ≤ amax C := by
  cases C with
  | nil => simp at ha
  | cons c cs =>
    rcases List.mem_cons.mp ha with h | h
    · subst h; exact le_foldl_max cs a
    · exact mem_le_foldl_max cs c a h

theorem amax_mem (C : List α) (hC : C ≠ []) : amax C ∈ C := by
  cases C with
  | nil => exact absurd rfl hC
  | cons c cs =>
    rcases foldl_max_mem cs c with h | h
    · rw [amax, h]; exact List.mem_cons_self c cs
    · exact List.mem_cons.mpr (Or.inr h)

theorem firstIdxGT_none_iff (thr : α) (C : List α) :
    firstIdxGT thr C = none ↔ ∀ c ∈ C, ¬ thr < c := by
  induction C with
  | nil => simp [firstIdxGT]
  | cons c cs ih =>
    by_cases h : thr < c
    · simp [firstIdxGT, h]
    · rw [show firstIdxGT thr (c :: cs) = (firstIdxGT thr cs).map (· + 1) from by
        simp [firstIdxGT, h]]
      rw [Option.map_eq_none', ih]
      constructor
      · intro hall a ha
        rcases List.mem_cons.mp ha with rfl | hmem
        · exact h
        · exact hall a hmem
      · intro hall a ha
        exact hall a (List.mem_cons.mpr (Or.inr ha))

theorem firstIdxGT_some (thr : α) (C : List α) :
    ∀ i, firstIdxGT thr C = some i →
      i < C.length ∧ thr < C.getD i 0 ∧ ∀ j, j < i → ¬ thr < C.getD j 0 := by
  induction C with
  | nil => intro i hi; simp [firstIdxGT] at hi
  | cons c cs ih =>
    intro i hi
    by_cases h : thr < c
    · simp [firstIdxGT, h] at hi
      subst hi
      exact ⟨Nat.succ_pos _, h, fun j hj => absurd hj (Nat.not_lt_zero j)⟩
    · simp [firstIdxGT, h] at hi
      rcases hi with ⟨k, hk, rfl⟩
      obtain ⟨hlen, hval, hmin⟩ := ih k hk
      refine ⟨Nat.succ_lt_succ hlen, by simpa using hval, ?_⟩
      intro j hj
      cases j with
      | zero => simpa using h
      | succ m => simpa using hmin m (Nat.lt_of_succ_lt_succ hj)

theorem firstIdxGT_isSome (thr : α) (C : List α) (h : ∃ c ∈ C, thr < c) :
    ∃ i, firstIdxGT thr C = some i := by
  cases hfi : firstIdxGT thr C with
  | none =>
    obtain ⟨c, hc, hlt⟩ := h
    exact absurd hlt ((firstIdxGT_none_iff thr C).mp hfi c hc)
  | some i => exact ⟨i, rfl⟩

theorem firstIdxGT_mono (thr thr' : α) (C : List α) (hth : thr ≤ thr') (i' : ℕ)
    (h' : firstIdxGT thr' C = some i') :
    ∃ i, firstIdxGT thr C = some i ∧ i ≤ i' := by
  obtain ⟨hlen', hval', _⟩ := firstIdxGT_some thr' C i' h'
  have hex : ∃ c ∈ C, thr < c :=
    ⟨C.getD i' 0, getD_mem C 0 i' hlen', lt_of_le_of_lt hth hval'⟩
  obtain ⟨i, hi⟩ := firstIdxGT_isSome thr C hex
  obtain ⟨_, _, hmin⟩ := firstIdxGT_some thr C i hi
  refine ⟨i, hi, ?_⟩
  by_contra hgt
  exact hmin i' (Nat.lt_of_not_le hgt) (lt_of_le_of_lt hth hval')

theorem firstIdxGE_some (thr : α) (C : List α) :
    ∀ i, firstIdxGE thr C = some i →
      i < C.length ∧ thr ≤ C.getD i 0 ∧ ∀ j, j < i → ¬ thr ≤ C.getD j 0 := by
  induction C with
  | nil => intro i hi; simp [firstIdxGE] at hi
  | cons c cs ih =>
    intro i hi
    by_cases h : thr ≤ c
    · simp [firstIdxGE, h] at hi
      subst hi
      exact ⟨Nat.succ_pos _, h, fun j hj => absurd hj (Nat.not_lt_zero j)⟩
    · simp [firstIdxGE, h] at hi
      rcases hi with ⟨k, hk, rfl⟩
      obtain ⟨hlen, hval, hmin⟩ := ih k hk
      refine ⟨Nat.succ_lt_succ hlen, by simpa using hval, ?_⟩
      intro j hj
      cases j with
      | zero => simpa using h
      | succ m => simpa using hmin m (Nat.lt_of_succ_lt_succ hj)

theorem firstIdxGE_isSome (thr : α) (C : List α) (h : ∃ c ∈ C, thr ≤ c) :
    ∃ i, firstIdxGE thr C = some i := by
  induction C with
  | nil => simp at h
  | cons c cs ih =>
    by_cases hc : thr ≤ c
    · exact ⟨0, by simp [firstIdxGE, hc]⟩
    · have : ∃ x ∈ cs, thr ≤ x := by
        obtain ⟨x, hx, hle⟩ := h
        rcases List.mem_cons.mp hx with hh | hh
        · subst hh; exact absurd hle hc
        · exact ⟨x, hh, hle⟩
      obtain ⟨i, hi⟩ := ih this
      exact ⟨i + 1, by simp [firstIdxGE, hc, hi]⟩

theorem argmaxIdx_spec (C : List α) (hC : C ≠ []) :
    argmaxIdx C < C.length ∧ C.getD (argmaxIdx C) 0 = amax C := by
  have hex : ∃ c ∈ C, amax C ≤ c := ⟨amax C, amax_mem C hC, le_refl _⟩
  obtain ⟨i, hi⟩ := firstIdxGE_isSome (amax C) C hex
  obtain ⟨hlen, hval, _⟩ := firstIdxGE_some (amax C) C i hi
  have hidx : argmaxIdx C = i := by simp [argmaxIdx, hi]
  rw [hidx]
  exact ⟨hlen, le_antisymm (le_amax C _ (getD_mem C 0 i hlen)) hval⟩

end ListOps

section Characterizer

variable {α : Type} [LinearOrderedField α]

/-- Failure modes of the curve characterizer.  The source raises an
`IndexError` out of `nonzero(...)[0][0]` when a threshold is never crossed
(the `boundNotFound` case); the `insufficientData` case is reserved in the
error taxonomy for a regression over fewer than two points but is never
produced by the source, whose regression call does not fail. -/
inductive CharError
  | boundNotFound
  | insufficientData
  deriving DecidableEq

/-- Characteristics extracted from a concentration curve: peak, peak time,
the two threshold-crossing indices and times, the rising-front sub-series
between them, and the regression slope over that sub-series. -/
structure FrontChar (α : Type) where
  peak : α
  peakTime : α
  lowerIdx : ℕ
  upperIdx : ℕ
  t1 : α
  t2 : α
  front : List (α × α)
  slope : α
  deriving DecidableEq

/-- Closed-form slope of the simple ordinary-least-squares fit y ≈ a + b·x,
the quantity `smf.ols(...).fit().params` reports for the single regressor:
b = (n·Σxy − Σx·Σy) / (n·Σx² − (Σx)²). -/
def olsSlope (pts : List (α × α)) : α :=
  let n : α := (pts.length : α)
  let sx := (pts.map Prod.fst).sum
  let sy := (pts.map Prod.snd).sum
  let sxx := (pts.map fun p => p.1 * p.1).sum
  let sxy := (pts.map fun p => p.1 * p.2).sum
  (n * sxy - sx * sy) / (n * sxx - sx * sx)

/-- Embedding of `np.where(np.logical_and(t >= t1, t <= t2))` applied to both
`t` and `C`: the (time, concentration) pairs whose time lies in the inclusive
interval `[t1, t2]`. -/
def frontWindow (t C : List α) (t1 t2 : α) : List (α × α) :=
  (t.zip C).filter fun p => decide (t1 ≤ p.1 ∧ p.1 ≤ t2)

/-- Source constant `ClowerD`: lower bound fraction of the peak for the
rising-front slope. -/
def ClowerD : α := 0.5

/-- Source constant `CupperD`: upper bound fraction of the peak for the
rising-front slope. -/
def CupperD : α := 0.999

/-- Embedding of the curve-characterization block (`Cmax`/`tpeak`/`indx1`/
`indx2`/`t1`/`t2`/slope regression), run identically on the observed curve and
on every synthetic curve inside the grid search. -/
def characterize (t C : List α) (lf uf : α) : Except CharError (FrontChar α) :=
  let peak := amax C
  match firstIdxGT (lf * peak) C, firstIdxGT (uf * peak) C with
  | some i1, some i2 =>
    let t1 := t.getD i1 0
    let t2 := t.getD i2 0
    let fr := frontWindow t C t1 t2
    Except.ok ⟨peak, t.getD (argmaxIdx C) 0, i1, i2, t1, t2, fr, olsSlope fr⟩
  | _, _ => Except.error CharError.boundNotFound

end Characterizer

section ForwardModel

/-- Source function `taylorU`: the Taylor analytical solution
C(t) = M / (A·√(4πKt)) · exp(−(x−Ut)²/(4Kt)), evaluated at one time.
The cross-sectional area `A` is a workspace global in the notebook and is
passed here as the first argument. -/
noncomputable def taylorU (A t M U K x : ℝ) : ℝ :=
  (M / (A * Real.sqrt (4 * Real.pi * K * t))) * Real.exp (-(x - U * t) ^ 2 / (4 * K * t))

/-- Forward-model contract `simulate`: `taylorU` mapped over a time vector,
as the notebook does by passing a numpy array for `t`. -/
noncomputable def simulate (ts : List ℝ) (M U K A x : ℝ) : List ℝ :=
  ts.map fun s => taylorU A s M U K x

/-- Error taxonomy entry for the forward model: invalid (non-positive)
K, A or time. -/
inductive ForwardError
  | invalidParameter
  deriving DecidableEq

/-- Run-level behavior of a `taylorU` call on a full time vector.  The source
performs no precondition checks whatsoever, so every call returns the computed
array: there is no code path producing an error. -/
noncomputable def simulateRun (ts : List ℝ) (M U K A x : ℝ) : Except ForwardError (List ℝ) :=
  Except.ok (simulate ts M U K A x)

end ForwardModel

section Converter

/-- Embedding of the `C_rel` loop: per-sample power-law conversion of specific
conductance to a NaCl mass percent, `0.000013 * EC[i] ** 1.161074`, then to
mg/L by the fixed factor 10000. -/
noncomputable def C_relList (EC : List ℝ) : List ℝ :=
  EC.map fun ec => 0.000013 * ec ^ (1.161074 : ℝ) * 10000

/-- Embedding of the `C_obs` loop: subtract the baseline `C_base = C_rel[1]`
from every converted sample and clamp negative results to zero. -/
noncomputable def C_obsList (EC : List ℝ) : List ℝ :=
  (C_relList EC).map fun c =>
    if c - (C_relList EC).getD 1 0 < 0 then 0 else c - (C_relList EC).getD 1 0

end Converter

section ModeA

/-- Index pairs visited by the `SLOPE D` nested loop,
`for i in range(1, N): for j in range(1, MMM)`: distance index `i` in the
outer loop, mass index `j` in the inner loop, both starting at 1. -/
def gridIndexPairs (N MMM : ℕ) : List (ℕ × ℕ) :=
  (List.range' 1 (N - 1)).product (List.range' 1 (MMM - 1))

/-- Source grid `xrange = linspace(1, 1000, N)` with `N = 1000`: candidate
distances in meters. -/
noncomputable def xrangeList : List ℝ := linspace 1 1000 1000

/-- Source grid `Msyn = linspace(M - M*.30, M + M*.30, MMM)` with `MMM = 50`:
candidate masses around the integrated mass estimate. -/
noncomputable def MsynList (M : ℝ) : List ℝ := linspace (M - M * 0.30) (M + M * 0.30) 50

/-- Body of one grid-search iteration: horizon `tend = 10*(x/U)`, synthetic
time grid `tsyn = linspace(1, tend, 1000)`, synthetic curve from the forward
model, characterization with the same `ClowerD`/`CupperD` fractions as the
observed curve, and `diff = |syntheticSlope - observedSlope|`.  An error is
the `IndexError` escaping the iteration when the synthetic curve never
crosses a threshold. -/
noncomputable def slopeDiffAt (A U K obsSlope x Mj : ℝ) : Except CharError ℝ :=
  let tsyn : List ℝ := linspace 1 (10 * (x / U)) 1000
  (characterize tsyn (simulate tsyn Mj U K A x) ClowerD CupperD).map fun fc =>
    |fc.slope - obsSlope|

/-- Every grid evaluation of the `SLOPE D` loop, in iteration order: the index
pair together with the diff its iteration computes (or the error aborting it). -/
noncomputable def modeAEvals (A U K M obsSlope : ℝ) : List ((ℕ × ℕ) × Except CharError ℝ) :=
  (gridIndexPairs 1000 50).map fun p =>
    (p, slopeDiffAt A U K obsSlope (xrangeList.getD p.1 0) ((MsynList M).getD p.2 0))

/-- Running-minimum update of the source loop:
`if diff < diffi: diffi = diff; XYZ = xrange[i]; MYZ = Msyn[j]`.  The state is
the current minimum and the (optional) index pair that produced it. -/
def runMinStep {α β : Type} [LinearOrder α] (s : α × Option β) (e : β × α) : α × Option β :=
  if e.2 < s.1 then (e.2, some e.1) else s

/-- Running-minimum fold from an arbitrary start state. -/
def runMinFrom {α β : Type} [LinearOrder α] (s : α × Option β) (entries : List (β × α)) :
    α × Option β :=
  entries.foldl runMinStep s

/-- One iteration of the grid-search loop at run level: an iteration whose
characterization failed aborts the whole loop (the Python exception
propagates), otherwise the running minimum is updated. -/
def modeAStep {α β : Type} [LinearOrder α] (s : Option (α × Option β))
    (e : β × Except CharError α) : Option (α × Option β) :=
  match s, e.2 with
  | some st, Except.ok d => some (runMinStep st (e.1, d))
  | _, _ => none

/-- The full `SLOPE D` loop: fold of `modeAStep` over the grid evaluations,
starting from the source's sentinel state `diffi = 10` with no best pair yet. -/
def modeALoop {α β : Type} [LinearOrderedField α] (entries : List (β × Except CharError α)) :
    Option (α × Option β) :=
  entries.foldl modeAStep (some ((10 : α), none))

/-- Result extraction after the loop: the estimate `(XYZ, MYZ)` read off the
grids at the best index pair.  `none` models the run ending without a result
(either an exception aborted the loop, or `XYZ`/`MYZ` were never assigned and
the final read raises `NameError`). -/
def modeAFinish {α : Type} [LinearOrderedField α] (xs Ms : List α)
    (entries : List ((ℕ × ℕ) × Except CharError α)) : Option (α × α) :=
  (modeALoop entries).bind fun st => st.2.map fun p => (xs.getD p.1 0, Ms.getD p.2 0)

/-- The Slope-Matching Estimator (Mode A) end to end: an observed slope that
could not be computed aborts the run before the loop starts; otherwise the
grid search runs and the winning `(x, M)` pair is returned. -/
noncomputable def estimateDistanceAndMass (A U K M : ℝ) (obsSlope : Except CharError ℝ) :
    Option (ℝ × ℝ) :=
  match obsSlope with
  | Except.error _ => none
  | Except.ok s => modeAFinish xrangeList (MsynList M) (modeAEvals A U K M s)

end ModeA

section ModeB

/-- Failure of the external least-squares optimizer (`scipy.optimize.curve_fit`
raises `RuntimeError` when it does not converge within its iteration budget). -/
inductive FitError
  | runtimeError
  deriving DecidableEq

/-- Result of the Mode B estimation: the fitted dispersion coefficient and
velocity. -/
structure EstimationResultB where
  K : ℝ
  U : ℝ

/-- Embedding of the Mode B cell
`popt, cov = curve_fit(taylor2nd, t, C, p0=[.1,0.1]); K = popt[0]; U = popt[1]`.
The optimizer itself is external (scipy); its outcome — either the fitted
parameter vector or its non-convergence error — is the argument, and the code
extracts `popt` into the result with no further checks. -/
def nonlinearFit (fitOutcome : Except FitError (ℝ × ℝ)) : Except FitError EstimationResultB :=
  fitOutcome.map fun popt => ⟨popt.1, popt.2⟩

end ModeB

section ClaimC2

/-- C2: for every time vector of strictly positive entries and parameters with
K > 0 and A > 0, `simulate` returns a sequence of the same length as `t` whose
i-th element is M / (A·√(4πK·t[i])) · exp(−(x − U·t[i])² / (4K·t[i])). -/
theorem simulate_implements_taylor_formula (ts : List ℝ) (M U K A x : ℝ)
    (ht : ∀ s ∈ ts, 0 < s) (hK : 0 < K) (hA : 0 < A) :
    (simulate ts M U K A x).length = ts.length ∧
    ∀ i, i < ts.length → (simulate ts M U K A x).getD i 0 =
      M / (A * Real.sqrt (4 * Real.pi * K * ts.getD i 0)) *
        Real.exp (-(x - U * ts.getD i 0) ^ 2 / (4 * K * ts.getD i 0)) := by
  constructor
  · rw [simulate, List.length_map]
  · intro i hi
    rw [simulate, getD_map _ _ _ i hi, taylorU]

/-- Witness for C2 at the concrete input ts = [1], M = U = K = A = x = 1. -/
theorem simulate_implements_taylor_formula_witness :
    (∀ s ∈ ([1] : List ℝ), 0 < s) ∧ (0 : ℝ) < 1 ∧
    ((simulate [1] 1 1 1 1 1).length = ([1] : List ℝ).length ∧
      ∀ i, i < ([1] : List ℝ).length → (simulate [1] 1 1 1 1 1).getD i 0 =
        1 / (1 * Real.sqrt (4 * Real.pi * 1 * ([1] : List ℝ).getD i 0)) *
          Real.exp (-(1 - 1 * ([1] : List ℝ).getD i 0) ^ 2 /
            (4 * 1 * ([1] : List ℝ).getD i 0))) :=
  ⟨by norm_num, by norm_num,
    simulate_implements_taylor_formula [1] 1 1 1 1 1 (by norm_num) (by norm_num) (by norm_num)⟩

end ClaimC2

section ClaimC3

/-- C3 counterexample: at the non-positive cross-sectional area A = −1 (with
t = 1, K = 1 strictly positive), the forward model call does not signal
InvalidParameterError: it returns ok, and the returned concentration is a
silently meaningless strictly negative value. -/
theorem simulate_accepts_invalid_parameters :
    ((-1 : ℝ) ≤ 0) ∧
    simulateRun [1] 1 0 1 (-1) 0 = Except.ok (simulate [1] 1 0 1 (-1) 0) ∧
    (simulate [1] 1 0 1 (-1) 0).getD 0 0 < 0 := by
  refine ⟨by norm_num, rfl, ?_⟩
  have h0 : (simulate [1] 1 0 1 (-1) 0).getD 0 0 = taylorU (-1) 1 1 0 1 0 := rfl
  rw [h0, taylorU]
  have harg : (-((0 : ℝ) - 0 * 1) ^ 2 / (4 * 1 * 1)) = 0 := by norm_num
  rw [harg, Real.exp_zero, mul_one]
  have hs : 0 < Real.sqrt (4 * Real.pi * 1 * 1) :=
    Real.sqrt_pos.mpr (by positivity)
  exact div_neg_of_pos_of_neg one_pos (by nlinarith)

/-- C3 amended: the forward model performs no input validation: every call
returns ok with the computed values, never an InvalidParameterError, and on
invalid inputs the values are silently meaningless — for A < 0 with positive
t, K, M the returned concentration is strictly negative (in the original
floating-point code, non-positive K or t likewise silently yields NaN). -/
theorem simulate_never_signals_error (t M U K A x : ℝ)
    (ht : 0 < t) (hK : 0 < K) (hM : 0 < M) (hA : A < 0) :
    (∀ (ts : List ℝ) (M1 U1 K1 A1 x1 : ℝ),
      simulateRun ts M1 U1 K1 A1 x1 = Except.ok (simulate ts M1 U1 K1 A1 x1)) ∧
    taylorU A t M U K x < 0 := by
  refine ⟨fun _ _ _ _ _ _ => rfl, ?_⟩
  rw [taylorU]
  have hs : 0 < Real.sqrt (4 * Real.pi * K * t) :=
    Real.sqrt_pos.mpr (by positivity)
  have hden : A * Real.sqrt (4 * Real.pi * K * t) < 0 := mul_neg_of_neg_of_pos hA hs
  have hfrac : M / (A * Real.sqrt (4 * Real.pi * K * t)) < 0 :=
    div_neg_of_pos_of_neg hM hden
  exact mul_neg_of_neg_of_pos hfrac (Real.exp_pos _)

/-- Witness for the amended C3 at t = 1, M = 1, U = 0, K = 1, A = −1, x = 0. -/
theorem simulate_never_signals_error_witness :
    ((0 : ℝ) < 1) ∧ ((-1 : ℝ) < 0) ∧
    ((∀ (ts : List ℝ) (M1 U1 K1 A1 x1 : ℝ),
      simulateRun ts M1 U1 K1 A1 x1 = Except.ok (simulate ts M1 U1 K1 A1 x1)) ∧
    taylorU (-1) 1 1 0 1 0 < 0) :=
  ⟨by norm_num, by norm_num,
    simulate_never_signals_error 1 1 0 1 (-1) 0 (by norm_num) (by norm_num) (by norm_num)
      (by norm_num)⟩

end ClaimC3

section ClaimC8

/-- C8: each output sample of the conductivity-to-concentration converter is
the power law 0.000013·EC^1.161074 scaled by 10000 to mg/L, minus the
baseline sample's converted value, clamped at zero: below-baseline samples
give exactly 0, and no output sample is negative. -/
theorem converter_clamps_below_baseline (EC : List ℝ) (hlen : 2 ≤ EC.length)
    (i : ℕ) (hi : i < EC.length) :
    (C_obsList EC).length = EC.length ∧
    (C_relList EC).getD i 0 = 0.000013 * (EC.getD i 0) ^ (1.161074 : ℝ) * 10000 ∧
    ((C_relList EC).getD i 0 < (C_relList EC).getD 1 0 → (C_obsList EC).getD i 0 = 0) ∧
    ((C_relList EC).getD 1 0 ≤ (C_relList EC).getD i 0 →
      (C_obsList EC).getD i 0 = (C_relList EC).getD i 0 - (C_relList EC).getD 1 0) ∧
    0 ≤ (C_obsList EC).getD i 0 := by
  have hlrel : (C_relList EC).length = EC.length := by rw [C_relList, List.length_map]
  have hirel : i < (C_relList EC).length := by rw [hlrel]; exact hi
  have hobs : (C_obsList EC).getD i 0 =
      (if (C_relList EC).getD i 0 - (C_relList EC).getD 1 0 < 0 then 0
       else (C_relList EC).getD i 0 - (C_relList EC).getD 1 0) := by
    rw [C_obsList, getD_map _ _ _ i hirel]
  refine ⟨?_, ?_, ?_, ?_, ?_⟩
  · rw [C_obsList, List.length_map, hlrel]
  · rw [C_relList, getD_map _ _ _ i hi]
  · intro hlt
    rw [hobs, if_pos (by linarith)]
  · intro hge
    rw [hobs, if_neg (by linarith)]
  · rw [hobs]
    by_cases h : (C_relList EC).getD i 0 - (C_relList EC).getD 1 0 < 0
    · rw [if_pos h]
    · rw [if_neg h]
      linarith [not_lt.mp h]

/-- Witness for C8 at the concrete conductance series EC = [1, 1, 1], i = 0. -/
theorem converter_clamps_below_baseline_witness :
    2 ≤ ([1, 1, 1] : List ℝ).length ∧ 0 < ([1, 1, 1] : List ℝ).length ∧
    ((C_obsList [1, 1, 1]).length = ([1, 1, 1] : List ℝ).length ∧
    (C_relList [1, 1, 1]).getD 0 0 =
      0.000013 * (([1, 1, 1] : List ℝ).getD 0 0) ^ (1.161074 : ℝ) * 10000 ∧
    ((C_relList [1, 1, 1]).getD 0 0 < (C_relList [1, 1, 1]).getD 1 0 →
      (C_obsList [1, 1, 1]).getD 0 0 = 0) ∧
    ((C_relList [1, 1, 1]).getD 1 0 ≤ (C_relList [1, 1, 1]).getD 0 0 →
      (C_obsList [1, 1, 1]).getD 0 0 =
        (C_relList [1, 1, 1]).getD 0 0 - (C_relList [1, 1, 1]).getD 1 0) ∧
    0 ≤ (C_obsList [1, 1, 1]).getD 0 0) :=
  ⟨by norm_num, by norm_num,
    converter_clamps_below_baseline [1, 1, 1] (by norm_num) 0 (by norm_num)⟩

end ClaimC8

section ClaimC9

/-- C9 counterexample: when the optimizer converges to popt = (−1, −1), the
Mode B code returns it as a successful estimate — K = −1 ≤ 0 and U = −1 ≤ 0
are in a successfully returned result, and no OptimizationDivergedError is
raised. -/
theorem nonlinearFit_returns_nonpositive_parameters :
    nonlinearFit (Except.ok (-1, -1)) = Except.ok ⟨-1, -1⟩ ∧
    (EstimationResultB.mk (-1) (-1)).K ≤ 0 ∧ (EstimationResultB.mk (-1) (-1)).U ≤ 0 :=
  ⟨rfl, by norm_num, by norm_num⟩

/-- C9 amended: Mode B fails exactly when the external optimizer itself fails
(its non-convergence error propagates unchanged), and on optimizer success it
returns the optimizer's parameter vector with no positivity check on K or U. -/
theorem nonlinearFit_propagates_optimizer_outcome (outcome : Except FitError (ℝ × ℝ)) :
    (∀ e, outcome = Except.error e → nonlinearFit outcome = Except.error e) ∧
    (∀ p, outcome = Except.ok p → nonlinearFit outcome = Except.ok ⟨p.1, p.2⟩) := by
  constructor
  · intro e he
    subst he
    rfl
  · intro p hp
    subst hp
    rfl

/-- Witness for the amended C9 at the concrete optimizer outcomes ok (2, 3)
and error runtimeError. -/
theorem nonlinearFit_propagates_optimizer_outcome_witness :
    nonlinearFit (Except.ok (2, 3)) = Except.ok ⟨2, 3⟩ ∧
    nonlinearFit (Except.error FitError.runtimeError) =
      Except.error FitError.runtimeError :=
  ⟨(nonlinearFit_propagates_optimizer_outcome (Except.ok (2, 3))).2 (2, 3) rfl,
    (nonlinearFit_propagates_optimizer_outcome
      (Except.error FitError.runtimeError)).1 FitError.runtimeError rfl⟩

end ClaimC9

section ClaimC4

/-- C4: when no element of the series strictly exceeds one of the two
threshold fractions of the peak, the characterizer fails with the
bound-not-found error: it returns no result (hence no silent zero-slope
result) and no other error. -/
theorem characterize_flat_curve_bound_error {α : Type} [LinearOrderedField α]
    (t C : List α) (lf uf : α)
    (h : (∀ c ∈ C, ¬ lf * amax C < c) ∨ (∀ c ∈ C, ¬ uf * amax C < c)) :
    characterize t C lf uf = Except.error CharError.boundNotFound := by
  rcases h with h | h
  · have h1 : firstIdxGT (lf * amax C) C = none := (firstIdxGT_none_iff _ _).mpr h
    simp [characterize, h1]
  · have h2 : firstIdxGT (uf * amax C) C = none := (firstIdxGT_none_iff _ _).mpr h
    cases h1 : firstIdxGT (lf * amax C) C with
    | none => simp [characterize, h1, h2]
    | some i => simp [characterize, h1, h2]

/-- Witness for C4 on the flat series C = [0, 0, 0] with fractions 1/2 and
999/1000. -/
theorem characterize_flat_curve_bound_error_witness :
    (∀ c ∈ ([0, 0, 0] : List ℚ), ¬ (1 / 2 : ℚ) * amax [0, 0, 0] < c) ∧
    characterize ([0, 1, 2] : List ℚ) [0, 0, 0] (1 / 2) (999 / 1000) =
      Except.error CharError.boundNotFound :=
  ⟨by norm_num [amax, max_def],
    characterize_flat_curve_bound_error [0, 1, 2] [0, 0, 0] (1 / 2) (999 / 1000)
      (Or.inl (by norm_num [amax, max_def]))⟩

end ClaimC4

section ClaimC5

theorem characterize_ok {α : Type} [LinearOrderedField α] (t C : List α) (lf uf : α)
    (i1 i2 : ℕ) (hi1 : firstIdxGT (lf * amax C) C = some i1)
    (hi2 : firstIdxGT (uf * amax C) C = some i2) :
    characterize t C lf uf = Except.ok
      ⟨amax C, t.getD (argmaxIdx C) 0, i1, i2, t.getD i1 0, t.getD i2 0,
        frontWindow t C (t.getD i1 0) (t.getD i2 0),
        olsSlope (frontWindow t C (t.getD i1 0) (t.getD i2 0))⟩ := by
  simp [characterize, hi1, hi2]

/-- C5: with at least one element strictly above each threshold, the
characterizer succeeds; its lower (resp. upper) bound index is the first
index with C[i] > lowerFraction·peak (resp. C[i] > upperFraction·peak), the
rising front is exactly the (t, C) pairs with t in the inclusive interval
[t[lowerIdx], t[upperIdx]], and the slope is the ordinary-least-squares
coefficient over that sub-series. -/
theorem characterize_front_spec {α : Type} [LinearOrderedField α]
    (t C : List α) (lf uf : α)
    (h1 : ∃ c ∈ C, lf * amax C < c) (h2 : ∃ c ∈ C, uf * amax C < c) :
    ∃ fc : FrontChar α, characterize t C lf uf = Except.ok fc ∧
      fc.peak = amax C ∧
      fc.lowerIdx < C.length ∧ lf * amax C < C.getD fc.lowerIdx 0 ∧
      (∀ j, j < fc.lowerIdx → ¬ lf * amax C < C.getD j 0) ∧
      fc.upperIdx < C.length ∧ uf * amax C < C.getD fc.upperIdx 0 ∧
      (∀ j, j < fc.upperIdx → ¬ uf * amax C < C.getD j 0) ∧
      fc.t1 = t.getD fc.lowerIdx 0 ∧ fc.t2 = t.getD fc.upperIdx 0 ∧
      fc.front = frontWindow t C fc.t1 fc.t2 ∧
      fc.slope = olsSlope fc.front := by
  obtain ⟨i1, hi1⟩ := firstIdxGT_isSome (lf * amax C) C h1
  obtain ⟨i2, hi2⟩ := firstIdxGT_isSome (uf * amax C) C h2
  obtain ⟨hl1, hv1, hm1⟩ := firstIdxGT_some _ _ i1 hi1
  obtain ⟨hl2, hv2, hm2⟩ := firstIdxGT_some _ _ i2 hi2
  refine ⟨⟨amax C, t.getD (argmaxIdx C) 0, i1, i2, t.getD i1 0, t.getD i2 0,
    frontWindow t C (t.getD i1 0) (t.getD i2 0),
    olsSlope (frontWindow t C (t.getD i1 0) (t.getD i2 0))⟩,
    ?_, rfl, hl1, hv1, hm1, hl2, hv2, hm2, rfl, rfl, rfl, rfl⟩
  exact characterize_ok t C lf uf i1 i2 hi1 hi2

/-- Witness for C5 on the ramp t = [0, 1, 2, 3], C = [0, 1, 2, 3] with
fractions 1/2 and 3/4. -/
theorem characterize_front_spec_witness :
    (∃ c ∈ ([0, 1, 2, 3] : List ℚ), (1 / 2 : ℚ) * amax [0, 1, 2, 3] < c) ∧
    (∃ c ∈ ([0, 1, 2, 3] : List ℚ), (3 / 4 : ℚ) * amax [0, 1, 2, 3] < c) ∧
    (∃ fc : FrontChar ℚ,
      characterize ([0, 1, 2, 3] : List ℚ) [0, 1, 2, 3] (1 / 2) (3 / 4) = Except.ok fc ∧
      fc.peak = amax ([0, 1, 2, 3] : List ℚ) ∧
      fc.lowerIdx < ([0, 1, 2, 3] : List ℚ).length ∧
      (1 / 2 : ℚ) * amax [0, 1, 2, 3] < ([0, 1, 2, 3] : List ℚ).getD fc.lowerIdx 0 ∧
      (∀ j, j < fc.lowerIdx →
        ¬ (1 / 2 : ℚ) * amax [0, 1, 2, 3] < ([0, 1, 2, 3] : List ℚ).getD j 0) ∧
      fc.upperIdx < ([0, 1, 2, 3] : List ℚ).length ∧
      (3 / 4 : ℚ) * amax [0, 1, 2, 3] < ([0, 1, 2, 3] : List ℚ).getD fc.upperIdx 0 ∧
      (∀ j, j < fc.upperIdx →
        ¬ (3 / 4 : ℚ) * amax [0, 1, 2, 3] < ([0, 1, 2, 3] : List ℚ).getD j 0) ∧
      fc.t1 = ([0, 1, 2, 3] : List ℚ).getD fc.lowerIdx 0 ∧
      fc.t2 = ([0, 1, 2, 3] : List ℚ).getD fc.upperIdx 0 ∧
      fc.front = frontWindow ([0, 1, 2, 3] : List ℚ) [0, 1, 2, 3] fc.t1 fc.t2 ∧
      fc.slope = olsSlope fc.front) :=
  ⟨by norm_num [amax, max_def], by norm_num [amax, max_def],
    characterize_front_spec [0, 1, 2, 3] [0, 1, 2, 3] (1 / 2) (3 / 4)
      (by norm_num [amax, max_def]) (by norm_num [amax, max_def])⟩

end ClaimC5

section ClaimC10

/-- C10 (implicit): for a series whose maximum is strictly positive and
fractions with 0 < lowerFraction ≤ upperFraction < 1, both first-crossing
searches necessarily succeed (the element at the argmax strictly exceeds both
thresholds), lowerIdx ≤ upperIdx ≤ argmax index, and the characterizer's
failing branch is unreachable. -/
theorem characterize_bounds_within_peak {α : Type} [LinearOrderedField α]
    (t C : List α) (lf uf : α)
    (hpos : 0 < amax C) (hl : 0 < lf) (hlu : lf ≤ uf) (hu : uf < 1) :
    ∃ i1 i2, firstIdxGT (lf * amax C) C = some i1 ∧
      firstIdxGT (uf * amax C) C = some i2 ∧
      i1 ≤ i2 ∧ i2 ≤ argmaxIdx C ∧
      C.getD (argmaxIdx C) 0 = amax C ∧
      lf * amax C < C.getD (argmaxIdx C) 0 ∧
      uf * amax C < C.getD (argmaxIdx C) 0 ∧
      ∃ fc, characterize t C lf uf = Except.ok fc := by
  have hC : C ≠ [] := by
    intro hnil
    rw [hnil] at hpos
    simp [amax] at hpos
  obtain ⟨hargLen, hargVal⟩ := argmaxIdx_spec C hC
  have hufpeak : uf * amax C < amax C := by nlinarith
  have hlfpeak : lf * amax C ≤ uf * amax C := by nlinarith
  have harg2 : uf * amax C < C.getD (argmaxIdx C) 0 := by
    rw [hargVal]
    exact hufpeak
  have harg1 : lf * amax C < C.getD (argmaxIdx C) 0 := lt_of_le_of_lt hlfpeak harg2
  obtain ⟨i2, hi2⟩ :=
    firstIdxGT_isSome (uf * amax C) C ⟨_, getD_mem C 0 _ hargLen, harg2⟩
  obtain ⟨i1, hi1, h12⟩ := firstIdxGT_mono (lf * amax C) (uf * amax C) C hlfpeak i2 hi2
  obtain ⟨_, _, hm2⟩ := firstIdxGT_some _ _ i2 hi2
  have h2arg : i2 ≤ argmaxIdx C := by
    by_contra hgt
    exact hm2 (argmaxIdx C) (Nat.lt_of_not_le hgt) harg2
  refine ⟨i1, i2, hi1, hi2, h12, h2arg, hargVal, harg1, harg2, ?_⟩
  exact ⟨_, characterize_ok t C lf uf i1 i2 hi1 hi2⟩

/-- Witness for C10 on C = [1, 2, 3] with fractions 1/2 and 3/4. -/
theorem characterize_bounds_within_peak_witness :
    (0 : ℚ) < amax [1, 2, 3] ∧ (0 : ℚ) < 1 / 2 ∧ (1 / 2 : ℚ) ≤ 3 / 4 ∧ (3 / 4 : ℚ) < 1 ∧
    (∃ i1 i2, firstIdxGT ((1 / 2 : ℚ) * amax [1, 2, 3]) [1, 2, 3] = some i1 ∧
      firstIdxGT ((3 / 4 : ℚ) * amax [1, 2, 3]) [1, 2, 3] = some i2 ∧
      i1 ≤ i2 ∧ i2 ≤ argmaxIdx ([1, 2, 3] : List ℚ) ∧
      ([1, 2, 3] : List ℚ).getD (argmaxIdx ([1, 2, 3] : List ℚ)) 0 = amax [1, 2, 3] ∧
      (1 / 2 : ℚ) * amax [1, 2, 3] <
        ([1, 2, 3] : List ℚ).getD (argmaxIdx ([1, 2, 3] : List ℚ)) 0 ∧
      (3 / 4 : ℚ) * amax [1, 2, 3] <
        ([1, 2, 3] : List ℚ).getD (argmaxIdx ([1, 2, 3] : List ℚ)) 0 ∧
      ∃ fc, characterize ([0, 1, 2] : List ℚ) [1, 2, 3] (1 / 2) (3 / 4) = Except.ok fc) :=
  ⟨by norm_num [amax, max_def], by norm_num, by norm_num, by norm_num,
    characterize_bounds_within_peak [0, 1, 2] [1, 2, 3] (1 / 2) (3 / 4)
      (by norm_num [amax, max_def]) (by norm_num) (by norm_num) (by norm_num)⟩

end ClaimC10

theorem gridIndexPairs_mem (N MMM : ℕ) (p : ℕ × ℕ) :
    p ∈ gridIndexPairs N MMM ↔
      (1 ≤ p.1 ∧ p.1 < 1 + (N - 1)) ∧ (1 ≤ p.2 ∧ p.2 < 1 + (MMM - 1)) := by
  obtain ⟨i, j⟩ := p
  rw [gridIndexPairs, List.pair_mem_product, List.mem_range'_1, List.mem_range'_1]

section ClaimC1

/-- C1 counterexample: the first point of each grid — the index pair (0, 0),
i.e. (xrange[0], Msyn[0]) — is never evaluated: the nested loop starts both
indices at 1, and the estimator's evaluated grid pairs are exactly the loop's
index pairs. -/
theorem grid_search_skips_first_grid_point :
    ((0, 0) : ℕ × ℕ) ∉ gridIndexPairs 1000 50 ∧
    (modeAEvals 1 1 1 1 0).map Prod.fst = gridIndexPairs 1000 50 := by
  constructor
  · intro hmem
    have h := (gridIndexPairs_mem 1000 50 (0, 0)).mp hmem
    omega
  · simp [modeAEvals, List.map_map, Function.comp_def]

/-- C1 amended: the two grids are evenly spaced (1000 distance samples over
[1, 1000] and 50 mass samples over [M−30%, M+30%]), and the estimator
evaluates exactly the (x, M) pairs with grid indices in {1,…,999} × {1,…,49}
— skipping the first point of each grid.  Each evaluated pair simulates the
forward model on a fixed 1000-point time grid over the horizon 10·x/U, runs
the curve characterizer with the same bound fractions as the observed data,
and computes diff = |syntheticSlope − observedSlope|. -/
theorem grid_search_evaluates_shifted_grid (A U K M s : ℝ) (i j : ℕ)
    (hij : (i, j) ∈ gridIndexPairs 1000 50) :
    (1 ≤ i ∧ i < 1000 ∧ 1 ≤ j ∧ j < 50) ∧
    xrangeList.length = 1000 ∧
    (MsynList M).length = 50 ∧
    (xrangeList.getD 0 0 = 1 ∧ xrangeList.getD 999 0 = 1000) ∧
    xrangeList.getD i 0 = 1 + (i : ℝ) ∧
    (MsynList M).getD j 0 = (M - M * 0.30) + (j : ℝ) * (M * 0.60 / 49) ∧
    modeAEvals A U K M s = (gridIndexPairs 1000 50).map (fun p =>
      (p, slopeDiffAt A U K s (xrangeList.getD p.1 0) ((MsynList M).getD p.2 0))) ∧
    (∀ x Mj : ℝ, slopeDiffAt A U K s x Mj =
      (characterize (linspace 1 (10 * (x / U)) 1000)
        (simulate (linspace 1 (10 * (x / U)) 1000) Mj U K A x) ClowerD CupperD).map
        fun fc => |fc.slope - s|) := by
  obtain ⟨⟨h1i, h2i⟩, h1j, h2j⟩ := (gridIndexPairs_mem 1000 50 (i, j)).mp hij
  refine ⟨⟨h1i, by omega, h1j, by omega⟩,
    linspace_length _ _ _, linspace_length _ _ _, ⟨?_, ?_⟩, ?_, ?_, rfl, fun x Mj => rfl⟩
  · rw [xrangeList, linspace_getD 1 1000 1000 0 (by norm_num)]
    norm_num
  · rw [xrangeList, linspace_getD 1 1000 1000 999 (by norm_num)]
    norm_num
  · rw [xrangeList, linspace_getD 1 1000 1000 i (by omega)]
    norm_num
  · rw [MsynList, linspace_getD (M - M * 0.30) (M + M * 0.30) 50 j (by omega)]
    push_cast
    ring

/-- Witness for the amended C1 at the concrete grid indices (1, 1). -/
theorem grid_search_evaluates_shifted_grid_witness :
    ((1, 1) : ℕ × ℕ) ∈ gridIndexPairs 1000 50 ∧
    xrangeList.getD 1 0 = 1 + ((1 : ℕ) : ℝ) :=
  have hmem : ((1, 1) : ℕ × ℕ) ∈ gridIndexPairs 1000 50 :=
    (gridIndexPairs_mem 1000 50 (1, 1)).mpr ⟨⟨le_refl 1, by norm_num⟩, le_refl 1, by norm_num⟩
  ⟨hmem, (grid_search_evaluates_shifted_grid 1 1 1 1 0 1 1 hmem).2.2.2.2.1⟩

end ClaimC1

theorem runMinFrom_spec {α β : Type} [LinearOrder α] (entries : List (β × α)) :
    ∀ s : α × Option β,
      (runMinFrom s entries = s ∧ ∀ e ∈ entries, s.1 ≤ e.2) ∨
      (∃ k, ∃ hk : k < entries.length,
        runMinFrom s entries = ((entries.get ⟨k, hk⟩).2, some (entries.get ⟨k, hk⟩).1) ∧
        (entries.get ⟨k, hk⟩).2 < s.1 ∧
        (∀ e ∈ entries, (entries.get ⟨k, hk⟩).2 ≤ e.2) ∧
        (∀ l, ∀ hl : l < entries.length, l < k →
          (entries.get ⟨k, hk⟩).2 < (entries.get ⟨l, hl⟩).2)) := by
  induction entries with
  | nil =>
    intro s
    left
    exact ⟨rfl, fun e he => absurd he (List.not_mem_nil e)⟩
  | cons e es ih =>
    intro s
    have hstep : runMinFrom s (e :: es) = runMinFrom (runMinStep s e) es := rfl
    by_cases hlt : e.2 < s.1
    · have hupd : runMinStep s e = (e.2, some e.1) := if_pos hlt
      rcases ih (e.2, some e.1) with ⟨heq, hall⟩ | ⟨k, hk, heq, hdec, hmin, hfirst⟩
      · right
        refine ⟨0, Nat.succ_pos _, ?_, by simpa using hlt, ?_, ?_⟩
        · rw [hstep, hupd, heq]
          rfl
        · intro e2 he2
          rcases List.mem_cons.mp he2 with rfl | hmem
          · simp
          · simpa using hall e2 hmem
        · intro l hl hl0
          exact absurd hl0 (Nat.not_lt_zero l)
      · right
        have hdec2 : (es.get ⟨k, hk⟩).2 < e.2 := by simpa using hdec
        refine ⟨k + 1, Nat.succ_lt_succ hk, ?_, ?_, ?_, ?_⟩
        · rw [hstep, hupd, heq]
          simp
        · simpa using lt_trans hdec2 hlt
        · intro e2 he2
          rcases List.mem_cons.mp he2 with rfl | hmem
          · simpa using le_of_lt hdec2
          · simpa using hmin e2 hmem
        · intro l hl hlk
          cases l with
          | zero => simpa using hdec2
          | succ m =>
            have hm : m < es.length := Nat.lt_of_succ_lt_succ hl
            simpa using hfirst m hm (Nat.lt_of_succ_lt_succ hlk)
    · have hupd : runMinStep s e = s := if_neg hlt
      have hse : s.1 ≤ e.2 := not_lt.mp hlt
      rcases ih s with ⟨heq, hall⟩ | ⟨k, hk, heq, hdec, hmin, hfirst⟩
      · left
        refine ⟨by rw [hstep, hupd, heq], ?_⟩
        intro e2 he2
        rcases List.mem_cons.mp he2 with rfl | hmem
        · exact hse
        · exact hall e2 hmem
      · right
        refine ⟨k + 1, Nat.succ_lt_succ hk, ?_, ?_, ?_, ?_⟩
        · rw [hstep, hupd, heq]
          simp
        · simpa using hdec
        · intro e2 he2
          rcases List.mem_cons.mp he2 with rfl | hmem
          · simpa using le_of_lt (lt_of_lt_of_le hdec hse)
          · simpa using hmin e2 hmem
        · intro l hl hlk
          cases l with
          | zero => simpa using lt_of_lt_of_le hdec hse
          | succ m =>
            have hm : m < es.length := Nat.lt_of_succ_lt_succ hl
            simpa using hfirst m hm (Nat.lt_of_succ_lt_succ hlk)

theorem foldl_modeAStep_ok {α β : Type} [LinearOrder α] (entries : List (β × α)) :
    ∀ s : α × Option β,
      List.foldl modeAStep (some s) (entries.map fun e => (e.1, Except.ok e.2)) =
        some (List.foldl runMinStep s entries) := by
  induction entries with
  | nil => intro s; rfl
  | cons e es ih =>
    intro s
    rw [List.map_cons, List.foldl_cons, List.foldl_cons]
    have harm : modeAStep (some s) (e.1, Except.ok e.2) = some (runMinStep s e) := by
      have h0 : modeAStep (some s) (e.1, Except.ok e.2) = some (runMinStep s (e.1, e.2)) := rfl
      rw [h0, Prod.mk.eta]
    rw [harm]
    exact ih (runMinStep s e)

theorem modeALoop_all_ok {α β : Type} [LinearOrderedField α] (entries : List (β × α)) :
    modeALoop (entries.map fun e => (e.1, Except.ok e.2)) =
      some (runMinFrom ((10 : α), none) entries) :=
  foldl_modeAStep_ok entries ((10 : α), none)

section ClaimC6

/-- C6: when every grid evaluation succeeds and at least one diff beats the
sentinel, the grid-search loop ends holding the minimal diff over the
evaluated entries together with the entry that produced it, and on ties the
first-found minimum is kept (every strictly earlier entry in iteration order
has a strictly larger diff, so the pair evaluated first — the smaller x for
the low-to-high distance iteration — wins). -/
theorem grid_search_returns_first_minimum {α β : Type} [LinearOrderedField α]
    (entries : List (β × α)) (h : ∃ e ∈ entries, e.2 < 10) :
    ∃ k, ∃ hk : k < entries.length,
      modeALoop (entries.map fun e => (e.1, Except.ok e.2)) =
        some ((entries.get ⟨k, hk⟩).2, some (entries.get ⟨k, hk⟩).1) ∧
      (∀ e ∈ entries, (entries.get ⟨k, hk⟩).2 ≤ e.2) ∧
      (∀ l, ∀ hl : l < entries.length, l < k →
        (entries.get ⟨k, hk⟩).2 < (entries.get ⟨l, hl⟩).2) := by
  rcases runMinFrom_spec entries ((10 : α), none) with ⟨_, hall⟩ | ⟨k, hk, heq, _, hmin, hfirst⟩
  · obtain ⟨e, he, hlt⟩ := h
    exact absurd (hall e he) (not_le.mpr hlt)
  · refine ⟨k, hk, ?_, hmin, hfirst⟩
    rw [modeALoop_all_ok entries, heq]

/-- Witness for C6 on the concrete tied entry list
[((1, 1), 5), ((2, 1), 5), ((3, 1), 7)]. -/
theorem grid_search_returns_first_minimum_witness :
    (∃ e ∈ ([((1, 1), 5), ((2, 1), 5), ((3, 1), 7)] : List ((ℕ × ℕ) × ℚ)), e.2 < 10) ∧
    (∃ k, ∃ hk : k < ([((1, 1), 5), ((2, 1), 5), ((3, 1), 7)] : List ((ℕ × ℕ) × ℚ)).length,
      modeALoop (([((1, 1), 5), ((2, 1), 5), ((3, 1), 7)] : List ((ℕ × ℕ) × ℚ)).map
          fun e => (e.1, Except.ok e.2)) =
        some ((([((1, 1), 5), ((2, 1), 5), ((3, 1), 7)] : List ((ℕ × ℕ) × ℚ)).get ⟨k, hk⟩).2,
          some ((([((1, 1), 5), ((2, 1), 5), ((3, 1), 7)] : List ((ℕ × ℕ) × ℚ)).get ⟨k, hk⟩).1)) ∧
      (∀ e ∈ ([((1, 1), 5), ((2, 1), 5), ((3, 1), 7)] : List ((ℕ × ℕ) × ℚ)),
        (([((1, 1), 5), ((2, 1), 5), ((3, 1), 7)] : List ((ℕ × ℕ) × ℚ)).get ⟨k, hk⟩).2 ≤ e.2) ∧
      (∀ l, ∀ hl : l < ([((1, 1), 5), ((2, 1), 5), ((3, 1), 7)] : List ((ℕ × ℕ) × ℚ)).length,
        l < k →
        (([((1, 1), 5), ((2, 1), 5), ((3, 1), 7)] : List ((ℕ × ℕ) × ℚ)).get ⟨k, hk⟩).2 <
          (([((1, 1), 5), ((2, 1), 5), ((3, 1), 7)] : List ((ℕ × ℕ) × ℚ)).get ⟨l, hl⟩).2)) :=
  ⟨⟨((1, 1), 5), by norm_num, by norm_num⟩,
    grid_search_returns_first_minimum
      ([((1, 1), 5), ((2, 1), 5), ((3, 1), 7)] : List ((ℕ × ℕ) × ℚ))
      ⟨((1, 1), 5), by norm_num, by norm_num⟩⟩

end ClaimC6

theorem foldl_modeAStep_none {α β : Type} [LinearOrder α]
    (l : List (β × Except CharError α)) : List.foldl modeAStep none l = none := by
  induction l with
  | nil => rfl
  | cons e es ih =>
    rw [List.foldl_cons]
    have h0 : modeAStep (none : Option (α × Option β)) e = none := by
      obtain ⟨b, v⟩ := e
      cases v <;> rfl
    rw [h0]
    exact ih

section ClaimC7

/-- C7: when the observed front slope could not be computed, the estimator
returns no result; the estimator on a computed slope is exactly the result
extraction over its grid evaluations; and when every grid evaluation fails
the curve characterizer the extraction yields no result — never a default or
partial one. -/
theorem modeA_failure_yields_no_result (A U K M s : ℝ) (e : CharError)
    (xs Ms : List ℝ) (entries : List ((ℕ × ℕ) × Except CharError ℝ))
    (hfail : ∀ ent ∈ entries, ∃ err, ent.2 = Except.error err) :
    estimateDistanceAndMass A U K M (Except.error e) = none ∧
    estimateDistanceAndMass A U K M (Except.ok s) =
      modeAFinish xrangeList (MsynList M) (modeAEvals A U K M s) ∧
    modeAFinish xs Ms entries = none := by
  refine ⟨rfl, rfl, ?_⟩
  cases entries with
  | nil => rfl
  | cons ent rest =>
    obtain ⟨err, herr⟩ := hfail ent (List.mem_cons_self ent rest)
    obtain ⟨b, v⟩ := ent
    have hv : v = Except.error err := herr
    subst hv
    rw [modeAFinish, modeALoop, List.foldl_cons]
    have h0 : modeAStep (some ((10 : ℝ), (none : Option (ℕ × ℕ))))
        (b, Except.error err) = none := rfl
    rw [h0, foldl_modeAStep_none]
    rfl

/-- Witness for C7 with a failed observed slope and a single failing grid
evaluation. -/
theorem modeA_failure_yields_no_result_witness :
    estimateDistanceAndMass 1 1 1 1 (Except.error CharError.boundNotFound) = none ∧
    estimateDistanceAndMass 1 1 1 1 (Except.ok 0) =
      modeAFinish xrangeList (MsynList 1) (modeAEvals 1 1 1 1 0) ∧
    modeAFinish ([] : List ℝ) []
      ([((1, 1), Except.error CharError.boundNotFound)] :
        List ((ℕ × ℕ) × Except CharError ℝ)) = none :=
  modeA_failure_yields_no_result 1 1 1 1 0 CharError.boundNotFound [] []
    [((1, 1), Except.error CharError.boundNotFound)]
    (fun ent hent => by
      rcases List.mem_singleton.mp hent with rfl
      exact ⟨CharError.boundNotFound, rfl⟩)

end ClaimC7

end IllicitDischarge
